import Mathlib

/-!
Verification development for the audio mixing/export pipeline and the
timeline compositing model of the pro-video-editor repository.

Float samples and times are modelled as rationals, machine integers as
Nat/Int, byte buffers as lists of naturals below 256, and fallible
operations as Except values.  Each definition is a direct translation of
the corresponding TypeScript function.
-/

/-- PCM buffer as produced by the Web Audio API (the source's AudioBuffer):
per-channel sample arrays, a sample rate and a per-channel length. -/
structure AudioBuffer where
  numberOfChannels : Nat
  sampleRate : Nat
  length : Nat
  channelData : List (List Rat)
deriving DecidableEq

/-- The data-model invariant: one sample array per channel, each holding
exactly `length` samples. -/
def AudioBuffer.wellformed (b : AudioBuffer) : Prop :=
  b.channelData.length = b.numberOfChannels ∧ ∀ d ∈ b.channelData, d.length = b.length

instance (b : AudioBuffer) : Decidable b.wellformed := by
  unfold AudioBuffer.wellformed
  infer_instance

/-- AudioBuffer.duration: length in samples divided by the sample rate. -/
def AudioBuffer.duration (b : AudioBuffer) : Rat :=
  (b.length : Rat) / (b.sampleRate : Rat)

/-- One sample of one channel; out-of-range reads give 0 (JS reads of missing
indices are only ever used through the `|| 0` / zero-initialised paths). -/
def AudioBuffer.sample (b : AudioBuffer) (ch i : Nat) : Rat :=
  (b.channelData.getD ch []).getD i 0

/-- Array read `data[idx] || 0` at a possibly out-of-range, even negative,
index: missing entries read as undefined, which `|| 0` turns into 0. -/
def readOr0 (data : List Rat) (idx : Int) : Rat :=
  if 0 ≤ idx then data.getD idx.toNat 0 else 0

/-- AudioProcessor.trimAudio: extract `Math.floor(endTime*rate) -
Math.floor(startTime*rate)` samples per channel starting at sample
`Math.floor(startTime*rate)`, reading 0 outside the source range. -/
def trimAudio (b : AudioBuffer) (startTime endTime : Rat) : AudioBuffer :=
  let startSample : Int := Int.floor (startTime * (b.sampleRate : Rat))
  let endSample : Int := Int.floor (endTime * (b.sampleRate : Rat))
  let len : Nat := (endSample - startSample).toNat
  { numberOfChannels := b.numberOfChannels
    sampleRate := b.sampleRate
    length := len
    channelData := b.channelData.map fun data =>
      (List.range len).map fun i : Nat => readOr0 data (startSample + (i : Int)) }

/-- AudioProcessor.changeVolume: a fresh buffer of the same shape whose every
sample is the input sample times the multiplier (the source loop copies each
channel of a well-formed buffer sample by sample). -/
def changeVolume (b : AudioBuffer) (volumeMultiplier : Rat) : AudioBuffer :=
  { b with channelData := b.channelData.map fun d => d.map (· * volumeMultiplier) }

/-- Inner loop of the peak scan: fold of `max peak |sample|` over one channel. -/
def channelPeak (acc : Rat) (d : List Rat) : Rat :=
  d.foldl (fun p x => max p |x|) acc

/-- Peak absolute sample across all channels, starting from 0, exactly as the
nested scan in AudioProcessor.normalizeAudio computes it. -/
def bufferPeak (b : AudioBuffer) : Rat :=
  b.channelData.foldl channelPeak 0

/-- AudioProcessor.normalizeAudio: return the buffer unchanged when the peak
is 0, otherwise scale by `0.95 / peak`. -/
def normalizeAudio (b : AudioBuffer) : AudioBuffer :=
  if bufferPeak b = 0 then b else changeVolume b ((19 / 20) / bufferPeak b)

/-- One element of the list passed to AudioProcessor.mixAudioBuffers. -/
structure MixEntry where
  buffer : AudioBuffer
  startTime : Rat
  volume : Rat
deriving DecidableEq

/-- One write of the inner mixing loop: `mixedData[idx] += v`.  Writes past
the end or before index 0 are dropped, as JS typed arrays ignore them (the
source also stops its loop at `startSample + i < mixedData.length`). -/
def addAt (acc : List Rat) (idx : Int) (v : Rat) : List Rat :=
  if 0 ≤ idx then acc.set idx.toNat (acc.getD idx.toNat 0 + v) else acc

/-- Inner sample loop of mixAudioBuffers: add `src[i] * vol` into
`acc[s + i]` for every source index `i`. -/
def mixLoop (acc : List Rat) (src : List Rat) (s : Int) (vol : Rat) : List Rat :=
  match src with
  | [] => acc
  | x :: rest => mixLoop (addAt acc s (x * vol)) rest (s + 1) vol

/-- One entry's pass of the per-channel mixing loop: read the entry's channel
`min ch (numberOfChannels - 1)` and add it in starting at
`Math.floor(startTime * sampleRate)`. -/
def mixStep (sampleRate ch : Nat) (acc : List Rat) (e : MixEntry) : List Rat :=
  mixLoop acc (e.buffer.channelData.getD (min ch (e.buffer.numberOfChannels - 1)) [])
    (Int.floor (e.startTime * (sampleRate : Rat))) e.volume

/-- Per-channel mixing: start from a zero channel of `totalSamples` samples
and fold every entry in. -/
def mixChannel (entries : List MixEntry) (sampleRate totalSamples ch : Nat) : List Rat :=
  entries.foldl (mixStep sampleRate ch) (List.replicate totalSamples 0)

/-- AudioProcessor.mixAudioBuffers.  An empty entry list throws; otherwise the
output length is `Math.floor(max(0, max over entries of startTime + duration)
* rate)` samples at the first entry's rate, with `max` of the channel counts
many channels (`Math.max` over the non-empty list of counts, all naturals,
equals this 0-seeded fold). -/
def mixAudioBuffers (buffers : List MixEntry) : Except String AudioBuffer :=
  match buffers with
  | [] => Except.error "Invalid audio context or no buffers provided"
  | first :: _ =>
    let totalLength : Rat :=
      buffers.foldl (fun m e => max m (e.startTime + e.buffer.duration)) 0
    let sampleRate := first.buffer.sampleRate
    let totalSamples : Nat := (Int.floor (totalLength * (sampleRate : Rat))).toNat
    let channels : Nat := buffers.foldl (fun m e => max m e.buffer.numberOfChannels) 0
    Except.ok
      { numberOfChannels := channels
        sampleRate := sampleRate
        length := totalSamples
        channelData :=
          (List.range channels).map (mixChannel buffers sampleRate totalSamples) }

/-- Bytes of an ASCII chunk tag as written by the source's writeString helper
(charCodeAt per character). -/
def strBytes (s : String) : List Nat :=
  s.toList.map Char.toNat

/-- Little-endian bytes of DataView.setUint16. -/
def u16le (v : Nat) : List Nat :=
  [v % 256, v / 256 % 256]

/-- Little-endian bytes of DataView.setUint32. -/
def u32le (v : Nat) : List Nat :=
  [v % 256, v / 256 % 256, v / 65536 % 256, v / 16777216 % 256]

/-- Truncation toward zero, the number-to-integer conversion DataView.setInt16
performs on its argument. -/
def ratTrunc (q : Rat) : Int :=
  if q < 0 then -Int.floor (-q) else Int.floor q

/-- Sample conversion of exportToWav: clamp to [-1, 1] with
`Math.max(-1, Math.min(1, x))`, then scale negative values by 0x8000 and
non-negative ones by 0x7FFF, truncated to an integer. -/
def sampleToPcm (x : Rat) : Int :=
  let s := max (-1) (min 1 x)
  ratTrunc (if s < 0 then s * 32768 else s * 32767)

/-- Little-endian bytes of DataView.setInt16: two's complement, i.e. the
value mod 2^16. -/
def i16le (v : Int) : List Nat :=
  u16le (v % 65536).toNat

/-- The 44 header bytes of exportToWav in write order: the DataView writes
fill offsets 0..43 consecutively, so listing them in write order reproduces
the header byte-for-byte. -/
def wavHeader (b : AudioBuffer) : List Nat :=
  strBytes "RIFF" ++ u32le (36 + b.length * b.numberOfChannels * 2) ++
  strBytes "WAVE" ++ strBytes "fmt " ++ u32le 16 ++ u16le 1 ++
  u16le b.numberOfChannels ++ u32le b.sampleRate ++
  u32le (b.sampleRate * b.numberOfChannels * 2) ++ u16le (b.numberOfChannels * 2) ++
  u16le 16 ++ strBytes "data" ++ u32le (b.length * b.numberOfChannels * 2)

/-- The data section of exportToWav: for each frame, each channel's converted
sample, two bytes per sample at consecutive offsets from 44 on. -/
def wavData (b : AudioBuffer) : List Nat :=
  (List.range b.length).flatMap fun i =>
    (List.range b.numberOfChannels).flatMap fun ch =>
      i16le (sampleToPcm (b.sample ch i))

/-- AudioProcessor.exportToWav: the source allocates a zeroed ArrayBuffer of
`44 + length*channels*2` bytes and writes header then samples at strictly
consecutive offsets, covering every byte exactly once, so the produced blob
is the concatenation of those writes. -/
def exportToWav (b : AudioBuffer) : List Nat :=
  wavHeader b ++ wavData b

/-- Read back an unsigned little-endian 16-bit value. -/
def readU16 (w : List Nat) (off : Nat) : Nat :=
  w.getD off 0 + 256 * w.getD (off + 1) 0

/-- Read back an unsigned little-endian 32-bit value. -/
def readU32 (w : List Nat) (off : Nat) : Nat :=
  w.getD off 0 + 256 * w.getD (off + 1) 0 + 65536 * w.getD (off + 2) 0 +
    16777216 * w.getD (off + 3) 0

/-- Read back a signed little-endian 16-bit value (two's complement). -/
def readI16 (w : List Nat) (off : Nat) : Int :=
  let u := readU16 w off
  if u < 32768 then (u : Int) else (u : Int) - 65536

/-- Kind tag of a clip or track ('video' | 'audio' | 'image' | 'text'). -/
inductive ClipKind
  | video
  | audio
  | image
  | text
deriving DecidableEq

/-- A clip effect as far as export dispatch needs it: its type string and
enabled flag. -/
structure EffectSpec where
  etype : String
  enabled : Bool
deriving DecidableEq

/-- A timeline clip (common fields of VideoClip / AudioClip / TextClip).
`hasFile` models whether the object carries a `file` property (true for the
video/audio variants, false for text clips). -/
structure Clip where
  id : String
  kind : ClipKind
  startTime : Rat
  endTime : Rat
  trimStart : Rat
  trimEnd : Rat
  duration : Rat
  volume : Rat
  track : Nat
  hasFile : Bool
  effects : List EffectSpec
deriving DecidableEq

/-- A timeline track. -/
structure Track where
  id : String
  ttype : ClipKind
  muted : Bool
  visible : Bool
  clips : List Clip
deriving DecidableEq

/-- The part of the editor store state the clip mutations touch. -/
structure TimelineState where
  tracks : List Track
  duration : Rat
deriving DecidableEq

/-- A `Partial<Clip>` update object: present fields overwrite, absent fields
keep the clip's value (Object.assign). -/
structure ClipUpdate where
  id : Option String := none
  startTime : Option Rat := none
  endTime : Option Rat := none
  trimStart : Option Rat := none
  trimEnd : Option Rat := none
  duration : Option Rat := none
  volume : Option Rat := none
  track : Option Nat := none
deriving DecidableEq

/-- `Object.assign(clip, updates)`. -/
def applyUpdate (u : ClipUpdate) (c : Clip) : Clip :=
  { c with
    id := u.id.getD c.id
    startTime := u.startTime.getD c.startTime
    endTime := u.endTime.getD c.endTime
    trimStart := u.trimStart.getD c.trimStart
    trimEnd := u.trimEnd.getD c.trimEnd
    duration := u.duration.getD c.duration
    volume := u.volume.getD c.volume
    track := u.track.getD c.track }

/-- Append a clip to the first track with the given id (`tracks.find` returns
the first match, which is then mutated in place). -/
def pushClipFirst (ts : List Track) (trackId : String) (c : Clip) : List Track :=
  match ts with
  | [] => []
  | t :: rest =>
    if t.id = trackId then { t with clips := t.clips ++ [c] } :: rest
    else t :: pushClipFirst rest trackId c

/-- editorStore.addClip: find the track by id; when found, push the clip
unconditionally and raise the stored duration to the clip end
(`startTime + (endTime - startTime)`) when that exceeds it. -/
def addClip (st : TimelineState) (trackId : String) (c : Clip) : TimelineState :=
  if st.tracks.any fun t => t.id = trackId then
    let clipEnd := c.startTime + (c.endTime - c.startTime)
    { tracks := pushClipFirst st.tracks trackId c
      duration := if clipEnd > st.duration then clipEnd else st.duration }
  else st

/-- Apply an update to the first clip with the given id in one track's clip
list (`findIndex` + `Object.assign`). -/
def updateFirstClip (cs : List Clip) (clipId : String) (u : ClipUpdate) : List Clip :=
  match cs with
  | [] => []
  | c :: rest =>
    if c.id = clipId then applyUpdate u c :: rest
    else c :: updateFirstClip rest clipId u

/-- editorStore.updateClip: for every track, merge the updates into the first
clip carrying the id, with no validation of the resulting timing. -/
def updateClip (st : TimelineState) (clipId : String) (u : ClipUpdate) : TimelineState :=
  { st with
    tracks := st.tracks.map fun t => { t with clips := updateFirstClip t.clips clipId u } }

/-- Clips of all visible tracks in track order (the
`tracks.filter(visible).flatMap(clips)` step of VideoPreview.renderFrame). -/
def collectVisible (ts : List Track) : List Clip :=
  (ts.filter fun t => t.visible).flatMap fun t => t.clips

/-- Sort relation of the `(a, b) => a.startTime - b.startTime` comparator. -/
def startLe (a b : Clip) : Prop :=
  a.startTime ≤ b.startTime

instance : DecidableRel startLe := fun a b =>
  inferInstanceAs (Decidable (a.startTime ≤ b.startTime))

/-- Stable sort by startTime.  JS Array.sort is stable, and Mathlib's
insertion sort keeps the input order of elements the relation ties. -/
def sortByStart (cs : List Clip) : List Clip :=
  List.insertionSort startLe cs

/-- The visible-clip selection of VideoPreview.renderFrame at time `t`:
clips of visible tracks with `startTime <= t && endTime > t`, stably sorted
by startTime. -/
def visibleClipsAt (ts : List Track) (t : Rat) : List Clip :=
  sortByStart ((collectVisible ts).filter fun c => decide (c.startTime ≤ t ∧ t < c.endTime))

/-- Well-indexed timeline: each clip's `track` back-reference names the index
of the track that owns it. -/
def tracksWF (ts : List Track) : Prop :=
  ∀ i, (h : i < ts.length) → ∀ c ∈ (ts.get ⟨i, h⟩).clips, c.track = i

instance (ts : List Track) : Decidable (tracksWF ts) := by
  unfold tracksWF
  infer_instance

/-- The pairwise order the active-clip query promises: ascending startTime,
ties broken by owning track index. -/
def clipOrder (a b : Clip) : Prop :=
  a.startTime < b.startTime ∨ (a.startTime = b.startTime ∧ a.track ≤ b.track)

/-- The operations ExportPanel.processTimelineExport and its helpers invoke,
in invocation order.  The first two are processor initialisations; all the
others are transcoding / decoding / processing service operations. -/
inductive ExportOp
  | initVideo
  | initAudio
  | trimVideoOp
  | applyVideoFilterOp
  | mergeVideosOp
  | loadAudioFileOp
  | trimAudioOp
  | changeVolumeOp
  | normalizeOp
  | lowpassOp
  | highpassOp
  | reverbOp
  | mixBuffersOp
  | exportWavOp
  | addAudioToVideoOp
  | convertFormatOp
  | downloadOp
deriving DecidableEq

/-- Whether an operation is a transcoding, decoding or processing service
operation (everything except processor initialisation). -/
def isServiceOp (e : ExportOp) : Bool :=
  match e with
  | ExportOp.initVideo => false
  | ExportOp.initAudio => false
  | _ => true

/-- Whether getFFmpegFilterString returns a non-empty filter string for this
effect type (its switch handles exactly these eight types). -/
def videoFilterKnown (e : EffectSpec) : Bool :=
  e.etype ∈ ["brightness", "contrast", "saturation", "hue", "blur",
             "grayscale", "sepia", "invert"]

/-- Service operations of processVideoClips for one clip: a trim when
`trimStart > 0 || trimEnd < duration`, then one filter call per enabled
effect with a known filter string. -/
def videoClipEvents (c : Clip) : List ExportOp :=
  (if c.trimStart > 0 ∨ c.trimEnd < c.duration then [ExportOp.trimVideoOp] else []) ++
  ((c.effects.filter fun e => e.enabled && videoFilterKnown e).map
    fun _ => ExportOp.applyVideoFilterOp)

/-- Service operations of processVideoClips: per-clip work then a merge when
more than one clip is present. -/
def processVideoClipsEvents (clips : List Clip) : List ExportOp :=
  clips.flatMap videoClipEvents ++
    (if clips.length > 1 then [ExportOp.mergeVideosOp] else [])

/-- Audio effect dispatch of processAudioClips (disabled effects and unknown
types are skipped). -/
def audioEffectEvents (e : EffectSpec) : List ExportOp :=
  if e.enabled then
    match e.etype with
    | "normalize" => [ExportOp.normalizeOp]
    | "lowpass" => [ExportOp.lowpassOp]
    | "highpass" => [ExportOp.highpassOp]
    | "reverb" => [ExportOp.reverbOp]
    | _ => []
  else []

/-- Service operations of processAudioClips for one clip: decode, optional
trim, optional volume change, then its effects. -/
def audioClipEvents (c : Clip) : List ExportOp :=
  [ExportOp.loadAudioFileOp] ++
  (if c.trimStart > 0 ∨ c.trimEnd < c.duration then [ExportOp.trimAudioOp] else []) ++
  (if c.volume ≠ 1 then [ExportOp.changeVolumeOp] else []) ++
  c.effects.flatMap audioEffectEvents

/-- Service operations of processAudioClips: per-clip work, then the mix and
the WAV serialisation. -/
def processAudioClipsEvents (clips : List Clip) : List ExportOp :=
  clips.flatMap audioClipEvents ++ [ExportOp.mixBuffersOp, ExportOp.exportWavOp]

/-- The exportable video clips: clips with a file on visible video tracks,
sorted by startTime. -/
def exportVideoClips (ts : List Track) : List Clip :=
  sortByStart
    (((ts.filter fun t => decide (t.ttype = ClipKind.video) && t.visible).flatMap
        fun t => t.clips).filter fun c => c.hasFile)

/-- The exportable audio clips: clips with a file on un-muted audio tracks,
sorted by startTime. -/
def exportAudioClips (ts : List Track) : List Clip :=
  sortByStart
    (((ts.filter fun t => decide (t.ttype = ClipKind.audio) && !t.muted).flatMap
        fun t => t.clips).filter fun c => c.hasFile)

/-- The export settings fields the orchestration branches on. -/
structure ExportSettingsM where
  format : String
  quality : String
deriving DecidableEq

/-- ExportPanel.processTimelineExport as the sequence of operations it
invokes together with its outcome: initialise both processors, collect the
clip sets, throw 'No clips to export' when both are empty, otherwise process
video, process audio, combine when both exist, convert when the settings ask
for it, and download. -/
def processTimelineExport (settings : ExportSettingsM) (ts : List Track) :
    List ExportOp × Except String Unit :=
  let videoClips := exportVideoClips ts
  let audioClips := exportAudioClips ts
  let initEvents := [ExportOp.initVideo, ExportOp.initAudio]
  if videoClips.isEmpty ∧ audioClips.isEmpty then
    (initEvents, Except.error "No clips to export")
  else
    let videoEvents := if videoClips.isEmpty then [] else processVideoClipsEvents videoClips
    let audioEvents := if audioClips.isEmpty then [] else processAudioClipsEvents audioClips
    let combineEvents :=
      if ¬videoClips.isEmpty ∧ ¬audioClips.isEmpty then [ExportOp.addAudioToVideoOp] else []
    let convertEvents :=
      if settings.format ≠ "mp4" ∨ settings.quality ≠ "high" then
        [ExportOp.convertFormatOp]
      else []
    (initEvents ++ videoEvents ++ audioEvents ++ combineEvents ++ convertEvents ++
        [ExportOp.downloadOp],
      Except.ok ())

/-- An audio clip as processAudioClips consumes it; `buffer` is the decoded
content of the clip's file (what loadAudioFile returns for it). -/
structure AudioClipData where
  buffer : AudioBuffer
  startTime : Rat
  trimStart : Rat
  trimEnd : Rat
  duration : Rat
  volume : Rat
  effects : List EffectSpec
deriving DecidableEq

/-- Value-level audio effect dispatch of processAudioClips.  The
lowpass/highpass/reverb branches run inside the browser's OfflineAudioContext
DSP graph, which is outside this embedding; they are kept as the identity
here and no claim depends on them. -/
def applyAudioEffect (b : AudioBuffer) (e : EffectSpec) : AudioBuffer :=
  if e.enabled then
    match e.etype with
    | "normalize" => normalizeAudio b
    | _ => b
  else b

/-- Per-clip pipeline of processAudioClips: trim when
`trimStart > 0 || trimEnd < duration`, apply changeVolume when
`volume !== 1`, fold the effects, and hand the mixer the entry
`{buffer, startTime, volume: clip.volume || 1}` (JS `||`: a volume of 0 is
falsy and becomes 1). -/
def processAudioEntry (cl : AudioClipData) : MixEntry :=
  let b1 :=
    if cl.trimStart > 0 ∨ cl.trimEnd < cl.duration then
      trimAudio cl.buffer cl.trimStart cl.trimEnd
    else cl.buffer
  let b2 := if cl.volume ≠ 1 then changeVolume b1 cl.volume else b1
  let b3 := cl.effects.foldl applyAudioEffect b2
  { buffer := b3
    startTime := cl.startTime
    volume := if cl.volume = 0 then 1 else cl.volume }

/-- processAudioClips up to (and including) the mix, before WAV
serialisation. -/
def processAudioClipsMix (clips : List AudioClipData) : Except String AudioBuffer :=
  mixAudioBuffers (clips.map processAudioEntry)

/-! ## Helper lemmas about the audio operations -/

theorem getD_map_channel (ds : List (List Rat)) (g : List Rat → List Rat)
    (hg : g [] = []) (ch : Nat) : (ds.map g).getD ch [] = g (ds.getD ch []) := by
  rcases Nat.lt_or_ge ch ds.length with h | h
  · rw [List.getD_eq_getElem _ _ (by simpa using h), List.getD_eq_getElem _ _ h,
      List.getElem_map]
  · rw [List.getD_eq_default _ _ (by simpa using h), List.getD_eq_default _ _ h, hg]

theorem getD_map_mul (d : List Rat) (f : Rat) (i : Nat) :
    (d.map (· * f)).getD i 0 = d.getD i 0 * f := by
  rcases Nat.lt_or_ge i d.length with hi | hi
  · rw [List.getD_eq_getElem _ _ (by simpa using hi), List.getD_eq_getElem _ _ hi,
      List.getElem_map]
  · rw [List.getD_eq_default _ _ (by simpa using hi), List.getD_eq_default _ _ hi, zero_mul]

theorem changeVolume_sample (b : AudioBuffer) (f : Rat) (ch i : Nat) :
    (changeVolume b f).sample ch i = b.sample ch i * f := by
  simp only [changeVolume, AudioBuffer.sample]
  rw [getD_map_channel _ _ rfl, getD_map_mul]

theorem changeVolume_one (b : AudioBuffer) : changeVolume b 1 = b := by
  cases b with
  | mk C R N data => simp [changeVolume]

/-- C7: changeVolume with factor 0 produces all-zero samples, factor 1 is the
identity, and in general every output sample is the corresponding input sample
times the factor, with no clamping. -/
theorem claim_C7_changeVolume (b : AudioBuffer) :
    (∀ ch i, (changeVolume b 0).sample ch i = 0) ∧
    changeVolume b 1 = b ∧
    ∀ f ch i, (changeVolume b f).sample ch i = b.sample ch i * f := by
  refine ⟨fun ch i => ?_, changeVolume_one b, fun f ch i => changeVolume_sample b f ch i⟩
  rw [changeVolume_sample, mul_zero]

/-- C3 counterexample: the claim says mixing the empty clip list returns the
empty buffer rather than failing, but mixAudioBuffers throws on an empty
list. -/
theorem claim_C3_counterexample :
    mixAudioBuffers [] = Except.error "Invalid audio context or no buffers provided" := rfl

/-- C3 (amended): mixing the empty list of clips raises the error 'Invalid
audio context or no buffers provided' and never returns a buffer. -/
theorem claim_C3_mix_empty_errors : ∀ b : AudioBuffer, mixAudioBuffers [] ≠ Except.ok b := by
  intro b h
  simp [mixAudioBuffers] at h

theorem le_channelPeak (d : List Rat) (p : Rat) : p ≤ channelPeak p d := by
  induction d generalizing p with
  | nil => exact le_refl p
  | cons x rest ih => exact le_trans (le_max_left p |x|) (ih (max p |x|))

theorem le_foldl_channelPeak (ds : List (List Rat)) (p : Rat) :
    p ≤ ds.foldl channelPeak p := by
  induction ds generalizing p with
  | nil => exact le_refl p
  | cons d rest ih => exact le_trans (le_channelPeak d p) (ih (channelPeak p d))

theorem bufferPeak_nonneg (b : AudioBuffer) : 0 ≤ bufferPeak b :=
  le_foldl_channelPeak b.channelData 0

theorem channelPeak_scale (g : Rat) (hg : 0 ≤ g) (d : List Rat) (p : Rat) :
    channelPeak (g * p) (d.map (· * g)) = g * channelPeak p d := by
  induction d generalizing p with
  | nil => rfl
  | cons x rest ih =>
    show channelPeak (max (g * p) |x * g|) (rest.map (· * g)) = _
    rw [abs_mul, abs_of_nonneg hg, mul_comm |x| g, ← mul_max_of_nonneg p |x| hg, ih]
    rfl

theorem bufferPeak_scale (b : AudioBuffer) (g : Rat) (hg : 0 ≤ g) :
    bufferPeak (changeVolume b g) = g * bufferPeak b := by
  have aux : ∀ (ds : List (List Rat)) (p : Rat),
      (ds.map fun d => d.map (· * g)).foldl channelPeak (g * p) =
        g * ds.foldl channelPeak p := by
    intro ds
    induction ds with
    | nil => intro p; rfl
    | cons d rest ih =>
      intro p
      show (rest.map fun d => d.map (· * g)).foldl channelPeak
          (channelPeak (g * p) (d.map (· * g))) = _
      rw [channelPeak_scale g hg d p, ih (channelPeak p d)]
      rfl
  have h0 : (0 : Rat) = g * 0 := (mul_zero g).symm
  show (b.channelData.map fun d => d.map (· * g)).foldl channelPeak 0 = _
  rw [h0, aux b.channelData 0]
  rfl

/-- C6: normalize scales the buffer so the global peak absolute sample becomes
0.95, is the identity when the peak is 0, and applying it twice equals
applying it once (exact idempotence, hence the second pass changes the peak
by less than any positive epsilon). -/
theorem claim_C6_normalize (b : AudioBuffer) :
    (bufferPeak b = 0 → normalizeAudio b = b) ∧
    (bufferPeak b ≠ 0 → bufferPeak (normalizeAudio b) = 19 / 20) ∧
    normalizeAudio (normalizeAudio b) = normalizeAudio b := by
  have hpeak : ∀ b0 : AudioBuffer, bufferPeak b0 ≠ 0 →
      bufferPeak (normalizeAudio b0) = 19 / 20 := by
    intro b0 h0
    have hg : 0 ≤ (19 / 20) / bufferPeak b0 :=
      div_nonneg (by norm_num) (bufferPeak_nonneg b0)
    rw [normalizeAudio, if_neg h0, bufferPeak_scale b0 _ hg, div_mul_cancel₀ _ h0]
  have hdef : ∀ b0 : AudioBuffer, normalizeAudio b0 =
      if bufferPeak b0 = 0 then b0 else changeVolume b0 ((19 / 20) / bufferPeak b0) :=
    fun _ => rfl
  refine ⟨fun h => by rw [hdef b, if_pos h], hpeak b, ?_⟩
  by_cases h : bufferPeak b = 0
  · have hb : normalizeAudio b = b := by rw [hdef b, if_pos h]
    rw [hb, hb]
  · have h95 : bufferPeak (normalizeAudio b) = 19 / 20 := hpeak b h
    have hne : bufferPeak (normalizeAudio b) ≠ 0 := by rw [h95]; norm_num
    rw [hdef (normalizeAudio b), if_neg hne, h95,
      div_self (by norm_num : (19 / 20 : Rat) ≠ 0), changeVolume_one]

/-- Concrete one-channel buffer with peak 1/2, used to witness C6. -/
def peakBuf : AudioBuffer :=
  { numberOfChannels := 1, sampleRate := 4, length := 1, channelData := [[1/2]] }

/-- Witness for C6: on a concrete buffer with nonzero peak, normalize brings
the peak to 0.95. -/
theorem claim_C6_witness :
    bufferPeak peakBuf ≠ 0 ∧ bufferPeak (normalizeAudio peakBuf) = 19 / 20 := by
  have hp : bufferPeak peakBuf = 1 / 2 := by
    simp only [bufferPeak, peakBuf, channelPeak, List.foldl_cons, List.foldl_nil]
    rw [(by norm_num : |(1 : Rat) / 2| = 1 / 2)]
    norm_num
  have hne : bufferPeak peakBuf ≠ 0 := by rw [hp]; norm_num
  exact ⟨hne, (claim_C6_normalize peakBuf).2.1 hne⟩

theorem trimAudio_channel (b : AudioBuffer) (s e : Rat) (ch : Nat)
    (h : ch < b.channelData.length) :
    (trimAudio b s e).channelData.getD ch [] =
      (List.range (trimAudio b s e).length).map
        (fun i : Nat =>
          readOr0 b.channelData[ch] (Int.floor (s * (b.sampleRate : Rat)) + (i : Int))) := by
  show (b.channelData.map _).getD ch [] = _
  rw [List.getD_eq_getElem _ _ (by simpa using h), List.getElem_map]
  rfl

/-- C5: trimAudio on a well-formed buffer with `0 ≤ s < e` yields a buffer of
`floor(e·rate) - floor(s·rate)` samples per channel holding the source range
from sample `floor(s·rate)` on, with every read past the end of the source
giving 0; being a total function it raises no error for out-of-range reads. -/
theorem claim_C5_trimAudio (b : AudioBuffer) (s e : Rat) (hwf : b.wellformed)
    (hs : 0 ≤ s) (hse : s < e) :
    (trimAudio b s e).numberOfChannels = b.numberOfChannels ∧
    (trimAudio b s e).sampleRate = b.sampleRate ∧
    ((trimAudio b s e).length : Int) =
      Int.floor (e * (b.sampleRate : Rat)) - Int.floor (s * (b.sampleRate : Rat)) ∧
    (trimAudio b s e).wellformed ∧
    ∀ ch, ch < b.numberOfChannels → ∀ i, i < (trimAudio b s e).length →
      (trimAudio b s e).sample ch i =
        if (Int.floor (s * (b.sampleRate : Rat))).toNat + i < b.length then
          b.sample ch ((Int.floor (s * (b.sampleRate : Rat))).toNat + i)
        else 0 := by
  have hR : (0 : Rat) ≤ (b.sampleRate : Rat) := Nat.cast_nonneg _
  have hS0 : 0 ≤ Int.floor (s * (b.sampleRate : Rat)) :=
    Int.floor_nonneg.mpr (mul_nonneg hs hR)
  have hSE : Int.floor (s * (b.sampleRate : Rat)) ≤ Int.floor (e * (b.sampleRate : Rat)) :=
    Int.floor_le_floor (mul_le_mul_of_nonneg_right hse.le hR)
  have hlen : (trimAudio b s e).length =
      (Int.floor (e * (b.sampleRate : Rat)) - Int.floor (s * (b.sampleRate : Rat))).toNat := rfl
  refine ⟨rfl, rfl, ?_, ?_, ?_⟩
  · rw [hlen]
    omega
  · constructor
    · show (b.channelData.map _).length = b.numberOfChannels
      rw [List.length_map]
      exact hwf.1
    · intro d hd
      obtain ⟨data, _, rfl⟩ := List.mem_map.1 hd
      simp [List.length_map, List.length_range, hlen]
  · intro ch hch i hi
    have hchlen : ch < b.channelData.length := by rw [hwf.1]; exact hch
    show ((trimAudio b s e).channelData.getD ch []).getD i 0 = _
    rw [trimAudio_channel b s e ch hchlen]
    have hi2 : i < ((List.range (trimAudio b s e).length).map
        (fun j : Nat =>
          readOr0 b.channelData[ch] (Int.floor (s * (b.sampleRate : Rat)) + (j : Int)))).length := by
      simpa using hi
    rw [List.getD_eq_getElem _ _ hi2, List.getElem_map, List.getElem_range]
    rw [readOr0, if_pos (by omega)]
    have htn : (Int.floor (s * (b.sampleRate : Rat)) + (i : Int)).toNat =
        (Int.floor (s * (b.sampleRate : Rat))).toNat + i := by omega
    rw [htn]
    have hdlen : b.channelData[ch].length = b.length :=
      hwf.2 _ (List.getElem_mem hchlen)
    by_cases hin : (Int.floor (s * (b.sampleRate : Rat))).toNat + i < b.length
    · rw [if_pos hin]
      show _ = (b.channelData.getD ch []).getD _ 0
      rw [List.getD_eq_getElem _ _ hchlen]
    · rw [if_neg hin, List.getD_eq_default]
      rw [hdlen]
      omega

/-- The clip list of the first track with the given id ([] when no track
matches). -/
def clipsOfTrack (st : TimelineState) (tid : String) : List Clip :=
  ((st.tracks.find? fun t => t.id = tid).map Track.clips).getD []

theorem find?_pushClipFirst (ts : List Track) (tid : String) (c : Clip)
    (h : (ts.any fun t => t.id = tid) = true) :
    (pushClipFirst ts tid c).find? (fun t => t.id = tid) =
      (ts.find? fun t => t.id = tid).map fun t => { t with clips := t.clips ++ [c] } := by
  induction ts with
  | nil => simp at h
  | cons t rest ih =>
    by_cases ht : t.id = tid
    · rw [pushClipFirst, if_pos ht]
      rw [List.find?_cons_of_pos _ (by simpa using ht),
        List.find?_cons_of_pos _ (by simpa using ht)]
      rfl
    · rw [pushClipFirst, if_neg ht]
      rw [List.find?_cons_of_neg _ (by simpa using ht),
        List.find?_cons_of_neg _ (by simpa using ht)]
      apply ih
      simpa [ht] using h

/-- C9 (amended): addClip and updateClip perform no validation of
`trimStart < trimEnd` or `startTime < endTime`.  addClip appends any clip,
valid or not, to the first track with the given id and raises the stored
duration to the clip's end time; updateClip merges any update, valid or not,
into the first matching clip of each track.  Nothing is rejected and no
error is raised. -/
theorem claim_C9_no_validation :
    (∀ (st : TimelineState) (tid : String) (c : Clip),
        (st.tracks.any fun t => t.id = tid) = true →
        clipsOfTrack (addClip st tid c) tid = clipsOfTrack st tid ++ [c] ∧
        (addClip st tid c).duration = max st.duration c.endTime) ∧
    (∀ (st : TimelineState) (cid : String) (u : ClipUpdate) (i : Nat) (t : Track)
        (c : Clip) (cs : List Clip),
        st.tracks[i]? = some t → t.clips = c :: cs → c.id = cid →
        (updateClip st cid u).tracks[i]? =
          some { t with clips := applyUpdate u c :: cs }) := by
  constructor
  · intro st tid c h
    constructor
    · unfold addClip clipsOfTrack
      rw [if_pos h]
      show ((pushClipFirst st.tracks tid c).find? _ |>.map Track.clips).getD [] = _
      rw [find?_pushClipFirst st.tracks tid c h]
      cases hfind : st.tracks.find? (fun t => t.id = tid) with
      | none =>
        obtain ⟨x, hx, hpx⟩ := List.any_eq_true.1 h
        exact absurd hpx (by simpa using List.find?_eq_none.1 hfind x hx)
      | some t => rfl
    · unfold addClip
      rw [if_pos h]
      show (if c.startTime + (c.endTime - c.startTime) > st.duration
          then c.startTime + (c.endTime - c.startTime) else st.duration) = _
      have hE : c.startTime + (c.endTime - c.startTime) = c.endTime := by ring
      rw [hE]
      rcases le_or_lt c.endTime st.duration with hle | hlt
      · rw [if_neg (not_lt.2 hle), max_eq_left hle]
      · rw [if_pos hlt, max_eq_right hlt.le]
  · intro st cid u i t c cs hts hclips hcid
    unfold updateClip
    show (st.tracks.map _)[i]? = _
    rw [List.getElem?_map, hts]
    have hfc : updateFirstClip t.clips cid u = applyUpdate u c :: cs := by
      rw [hclips]
      simp only [updateFirstClip]
      rw [if_pos hcid]
    simp only [Option.map_some', hfc]

/-- A clip whose timing violates `trimStart < trimEnd`. -/
def badClip : Clip :=
  { id := "c-bad", kind := ClipKind.video, startTime := 0, endTime := 1,
    trimStart := 2, trimEnd := 1, duration := 10, volume := 1, track := 0,
    hasFile := true, effects := [] }

/-- A state with one empty video track. -/
def state0 : TimelineState :=
  { tracks := [{ id := "track1", ttype := ClipKind.video, muted := false,
                 visible := true, clips := [] }],
    duration := 0 }

/-- A well-formed audio clip sitting in `state1`. -/
def goodClip : Clip :=
  { id := "c1", kind := ClipKind.audio, startTime := 0, endTime := 5,
    trimStart := 0, trimEnd := 5, duration := 5, volume := 1, track := 0,
    hasFile := true, effects := [] }

/-- A state with one audio track holding `goodClip`. -/
def state1 : TimelineState :=
  { tracks := [{ id := "track1", ttype := ClipKind.audio, muted := false,
                 visible := true, clips := [goodClip] }],
    duration := 5 }

/-- An update whose timing violates `trimStart < trimEnd`. -/
def badUpdate : ClipUpdate :=
  { trimStart := some 5, trimEnd := some 1 }

/-- C9 counterexample: adding a clip with `trimStart ≥ trimEnd` is not
rejected — the operation mutates the timeline state. -/
theorem claim_C9_counterexample :
    ¬ badClip.trimStart < badClip.trimEnd ∧ addClip state0 "track1" badClip ≠ state0 := by
  constructor
  · norm_num [badClip]
  · intro heq
    have hcond : (state0.tracks.any fun t => t.id = "track1") = true := by decide
    have htr : (addClip state0 "track1" badClip).tracks = state0.tracks :=
      congrArg TimelineState.tracks heq
    have htr2 : (addClip state0 "track1" badClip).tracks =
        pushClipFirst state0.tracks "track1" badClip := by
      unfold addClip
      rw [if_pos hcond]
    rw [htr2] at htr
    exact absurd htr (by decide)

/-- Witness for C9 (amended): the invalid clip is appended and the invalid
update is applied on concrete states. -/
theorem claim_C9_witness :
    clipsOfTrack (addClip state0 "track1" badClip) "track1" = [badClip] ∧
    (updateClip state1 "c1" badUpdate).tracks[0]? =
      some { id := "track1", ttype := ClipKind.audio, muted := false,
             visible := true, clips := [applyUpdate badUpdate goodClip] } := by
  constructor
  · have h := (claim_C9_no_validation.1 state0 "track1" badClip (by decide)).1
    rw [show clipsOfTrack state0 "track1" = ([] : List Clip) from rfl] at h
    simpa using h
  · exact claim_C9_no_validation.2 state1 "c1" badUpdate 0
      { id := "track1", ttype := ClipKind.audio, muted := false,
        visible := true, clips := [goodClip] }
      goodClip [] rfl rfl rfl

/-- C10: with no exportable video clips and no exportable audio clips, the
export orchestration throws 'No clips to export' right after processor
initialisation, before invoking any transcoding, decoding or processing
service operation. -/
theorem claim_C10_noContent (settings : ExportSettingsM) (ts : List Track)
    (hv : exportVideoClips ts = []) (ha : exportAudioClips ts = []) :
    processTimelineExport settings ts =
      ([ExportOp.initVideo, ExportOp.initAudio], Except.error "No clips to export") ∧
    ((processTimelineExport settings ts).1.filter fun e => isServiceOp e) = [] := by
  have h1 : processTimelineExport settings ts =
      ([ExportOp.initVideo, ExportOp.initAudio], Except.error "No clips to export") := by
    unfold processTimelineExport
    rw [hv, ha]
    rfl
  exact ⟨h1, by rw [h1]; rfl⟩

/-- A timeline whose only video track is invisible and whose only audio track
is muted: both exportable clip sets are empty although clips exist. -/
def mutedTracks : List Track :=
  [{ id := "v1", ttype := ClipKind.video, muted := false, visible := false,
     clips := [badClip] },
   { id := "a1", ttype := ClipKind.audio, muted := true, visible := true,
     clips := [goodClip] }]

/-- Witness for C10 on a concrete timeline with only hidden/muted clips. -/
theorem claim_C10_witness :
    processTimelineExport { format := "mp4", quality := "high" } mutedTracks =
      ([ExportOp.initVideo, ExportOp.initAudio], Except.error "No clips to export") :=
  (claim_C10_noContent { format := "mp4", quality := "high" } mutedTracks
    (by decide) (by decide)).1

/-- Concrete one-channel buffer used to witness C5. -/
def trimBuf : AudioBuffer :=
  { numberOfChannels := 1, sampleRate := 2, length := 2, channelData := [[3/4, 1/2]] }

/-- Witness for C5: trimming past the end of a concrete two-sample buffer
pads with zeroes instead of erroring. -/
theorem claim_C5_witness :
    AudioBuffer.wellformed trimBuf ∧ (trimAudio trimBuf 0 2).sample 0 3 = 0 := by
  have hwf : AudioBuffer.wellformed trimBuf := by
    refine ⟨rfl, ?_⟩
    intro d hd
    simp only [trimBuf, List.mem_singleton] at hd
    subst hd
    rfl
  have h := claim_C5_trimAudio trimBuf 0 2 hwf (by norm_num) (by norm_num)
  have hfloorS : Int.floor ((0 : Rat) * ((trimBuf.sampleRate : Nat) : Rat)) = 0 := by
    norm_num
  have hfloorE : Int.floor ((2 : Rat) * ((trimBuf.sampleRate : Nat) : Rat)) = 4 := by
    show Int.floor ((2 : Rat) * ((2 : Nat) : Rat)) = 4
    norm_num
  have hlen : (trimAudio trimBuf 0 2).length = 4 := by
    have h3 := h.2.2.1
    rw [hfloorE, hfloorS] at h3
    omega
  have h5 := h.2.2.2.2 0 (by norm_num [trimBuf]) 3 (by rw [hlen]; norm_num)
  rw [hfloorS] at h5
  refine ⟨hwf, ?_⟩
  rw [h5]
  norm_num [trimBuf]

/-! ## Lemmas about the mixing loop -/

theorem getD_set (l : List Rat) (n : Nat) (a : Rat) (j : Nat) :
    (l.set n a).getD j 0 = if n = j ∧ n < l.length then a else l.getD j 0 := by
  rw [List.getD_eq_getElem?_getD, List.getElem?_set, List.getD_eq_getElem?_getD]
  by_cases h : n = j
  · subst h
    by_cases h2 : n < l.length
    · simp [h2]
    · simp [h2, List.getElem?_eq_none (Nat.le_of_not_lt h2)]
  · simp [h]

theorem addAt_length (acc : List Rat) (idx : Int) (v : Rat) :
    (addAt acc idx v).length = acc.length := by
  unfold addAt
  split
  · rw [List.length_set]
  · rfl

theorem mixLoop_length : ∀ (src acc : List Rat) (s : Int) (vol : Rat),
    (mixLoop acc src s vol).length = acc.length
  | [], _, _, _ => rfl
  | x :: rest, acc, s, vol => by
    show (mixLoop (addAt acc s (x * vol)) rest (s + 1) vol).length = _
    rw [mixLoop_length rest _ _ _, addAt_length]

theorem addAt_getD (acc : List Rat) (idx : Int) (v : Rat) (j : Nat) :
    (addAt acc idx v).getD j 0 =
      acc.getD j 0 + (if (j : Int) = idx ∧ j < acc.length then v else 0) := by
  unfold addAt
  by_cases h0 : 0 ≤ idx
  · rw [if_pos h0, getD_set]
    by_cases hj : (j : Int) = idx ∧ j < acc.length
    · have h1 : idx.toNat = j ∧ idx.toNat < acc.length := by omega
      rw [if_pos h1, if_pos hj, h1.1]
    · have h1 : ¬(idx.toNat = j ∧ idx.toNat < acc.length) := by omega
      rw [if_neg h1, if_neg hj, add_zero]
  · rw [if_neg h0]
    have hj : ¬((j : Int) = idx ∧ j < acc.length) := by omega
    rw [if_neg hj, add_zero]

theorem mixLoop_getD : ∀ (src acc : List Rat) (s : Int) (vol : Rat) (j : Nat),
    (mixLoop acc src s vol).getD j 0 =
      acc.getD j 0 +
        (if s ≤ (j : Int) ∧ (j : Int) < s + (src.length : Int) ∧ j < acc.length
         then src.getD ((j : Int) - s).toNat 0 * vol else 0)
  | [], acc, s, vol, j => by
    show acc.getD j 0 = acc.getD j 0 + _
    have hn : ¬(s ≤ (j : Int) ∧ (j : Int) < s + ((([] : List Rat).length : Nat) : Int) ∧
        j < acc.length) := by
      simp only [List.length_nil]
      omega
    rw [if_neg hn, add_zero]
  | x :: rest, acc, s, vol, j => by
    show (mixLoop (addAt acc s (x * vol)) rest (s + 1) vol).getD j 0 = _
    rw [mixLoop_getD rest _ _ _ _, addAt_getD, addAt_length]
    by_cases hc : (j : Int) = s ∧ j < acc.length
    · have h2 : ¬(s + 1 ≤ (j : Int) ∧ (j : Int) < s + 1 + (rest.length : Int) ∧
          j < acc.length) := by omega
      have h3 : s ≤ (j : Int) ∧ (j : Int) < s + ((x :: rest).length : Int) ∧
          j < acc.length := by
        simp only [List.length_cons]
        omega
      rw [if_pos hc, if_neg h2, if_pos h3, add_zero]
      have h4 : ((j : Int) - s).toNat = 0 := by omega
      rw [h4]
      rfl
    · rw [if_neg hc]
      by_cases h5 : s + 1 ≤ (j : Int) ∧ (j : Int) < s + 1 + (rest.length : Int) ∧
          j < acc.length
      · have h6 : s ≤ (j : Int) ∧ (j : Int) < s + ((x :: rest).length : Int) ∧
            j < acc.length := by
          simp only [List.length_cons]
          omega
        rw [if_pos h5, if_pos h6, add_zero]
        have h7 : ((j : Int) - s).toNat = ((j : Int) - (s + 1)).toNat + 1 := by omega
        rw [h7]
        rfl
      · have h8 : ¬(s ≤ (j : Int) ∧ (j : Int) < s + ((x :: rest).length : Int) ∧
            j < acc.length) := by
          simp only [List.length_cons] at h5 ⊢
          omega
        rw [if_neg h5, if_neg h8, add_zero, add_zero]

/-- The contribution of one mix entry to output channel `ch` at sample `j`. -/
def entryContrib (sampleRate ch j : Nat) (e : MixEntry) : Rat :=
  if Int.floor (e.startTime * (sampleRate : Rat)) ≤ (j : Int) ∧
      (j : Int) < Int.floor (e.startTime * (sampleRate : Rat)) +
        (((e.buffer.channelData.getD (min ch (e.buffer.numberOfChannels - 1)) []).length :
          Nat) : Int)
  then (e.buffer.channelData.getD (min ch (e.buffer.numberOfChannels - 1)) []).getD
        ((j : Int) - Int.floor (e.startTime * (sampleRate : Rat))).toNat 0 * e.volume
  else 0

theorem mixStep_length (r ch : Nat) (acc : List Rat) (e : MixEntry) :
    (mixStep r ch acc e).length = acc.length :=
  mixLoop_length _ _ _ _

theorem mixStep_getD (r ch : Nat) (acc : List Rat) (e : MixEntry) (j : Nat)
    (hj : j < acc.length) :
    (mixStep r ch acc e).getD j 0 = acc.getD j 0 + entryContrib r ch j e := by
  unfold mixStep entryContrib
  rw [mixLoop_getD]
  congr 1
  by_cases hc : Int.floor (e.startTime * (r : Rat)) ≤ (j : Int) ∧
      (j : Int) < Int.floor (e.startTime * (r : Rat)) +
        (((e.buffer.channelData.getD (min ch (e.buffer.numberOfChannels - 1)) []).length :
          Nat) : Int)
  · rw [if_pos ⟨hc.1, hc.2, hj⟩, if_pos hc]
  · rw [if_neg (fun h => hc ⟨h.1, h.2.1⟩), if_neg hc]

theorem foldl_mixStep_length : ∀ (entries : List MixEntry) (r ch : Nat) (acc : List Rat),
    (entries.foldl (mixStep r ch) acc).length = acc.length
  | [], _, _, _ => rfl
  | e :: rest, r, ch, acc => by
    show (rest.foldl (mixStep r ch) (mixStep r ch acc e)).length = _
    rw [foldl_mixStep_length rest r ch _, mixStep_length]

theorem foldl_mixStep_getD : ∀ (entries : List MixEntry) (r ch : Nat) (acc : List Rat)
    (j : Nat), j < acc.length →
    (entries.foldl (mixStep r ch) acc).getD j 0 =
      acc.getD j 0 + (entries.map (entryContrib r ch j)).sum
  | [], r, ch, acc, j, _ => by
    show acc.getD j 0 = acc.getD j 0 + ([] : List Rat).sum
    rw [List.sum_nil, add_zero]
  | e :: rest, r, ch, acc, j, hj => by
    show (rest.foldl (mixStep r ch) (mixStep r ch acc e)).getD j 0 = _
    rw [foldl_mixStep_getD rest r ch _ j (by rw [mixStep_length]; exact hj),
      mixStep_getD r ch acc e j hj, List.map_cons, List.sum_cons, add_assoc]

theorem getD_replicate_zero (n j : Nat) : (List.replicate n (0 : Rat)).getD j 0 = 0 := by
  rw [List.getD_eq_getElem?_getD]
  simp

theorem mixChannel_length (entries : List MixEntry) (r n ch : Nat) :
    (mixChannel entries r n ch).length = n := by
  unfold mixChannel
  rw [foldl_mixStep_length, List.length_replicate]

theorem mixChannel_getD (entries : List MixEntry) (r n ch j : Nat) (hj : j < n) :
    (mixChannel entries r n ch).getD j 0 = (entries.map (entryContrib r ch j)).sum := by
  unfold mixChannel
  rw [foldl_mixStep_getD entries r ch _ j (by rw [List.length_replicate]; exact hj),
    getD_replicate_zero, zero_add]

theorem getD_map_range {α : Type} (f : Nat → α) (dflt : α) (n ch : Nat) (h : ch < n) :
    ((List.range n).map f).getD ch dflt = f ch := by
  rw [List.getD_eq_getElem _ _ (by simpa using h), List.getElem_map, List.getElem_range]

theorem foldl_max_bounds {α β : Type} [LinearOrder β] (f : α → β) :
    ∀ (l : List α) (m0 : β),
      m0 ≤ l.foldl (fun m e => max m (f e)) m0 ∧
      ∀ x ∈ l, f x ≤ l.foldl (fun m e => max m (f e)) m0
  | [], m0 => ⟨le_refl m0, by intro x hx; exact absurd hx (List.not_mem_nil x)⟩
  | a :: l, m0 => by
    obtain ⟨hseed, helts⟩ := foldl_max_bounds f l (max m0 (f a))
    refine ⟨le_trans (le_max_left m0 (f a)) hseed, ?_⟩
    intro x hx
    rcases List.mem_cons.1 hx with rfl | hx2
    · exact le_trans (le_max_right m0 (f x)) hseed
    · exact helts x hx2

theorem foldl_max_attained {α β : Type} [LinearOrder β] (f : α → β) :
    ∀ (l : List α) (m0 : β),
      l.foldl (fun m e => max m (f e)) m0 = m0 ∨
      ∃ x ∈ l, l.foldl (fun m e => max m (f e)) m0 = f x
  | [], _ => Or.inl rfl
  | a :: l, m0 => by
    simp only [List.foldl_cons]
    rcases foldl_max_attained f l (max m0 (f a)) with h | ⟨x, hx, hfx⟩
    · rcases max_cases m0 (f a) with ⟨hm, _⟩ | ⟨hm, _⟩
      · exact Or.inl (by rw [h, hm])
      · exact Or.inr ⟨a, List.mem_cons_self a l, by rw [h, hm]⟩
    · exact Or.inr ⟨x, List.mem_cons_of_mem _ hx, hfx⟩

/-- C2: mixing a non-empty entry list (well-formed buffers, at least one
channel each, non-negative start times) returns a buffer whose sample rate is
the first entry's, whose channel count is the maximum channel count across
entries, whose length is `floor(max over entries of (startTime + duration) ·
rate)` samples, and whose every sample is the plain sum — no averaging and no
clamping — of the entries' contributions: the entry's sample scaled by its
volume, placed at offset `floor(startTime · rate)`, read from source channel
`min(ch, channels-1)`, which broadcasts mono sources to every output
channel. -/
theorem claim_C2_mixAudioBuffers (first : MixEntry) (rest : List MixEntry)
    (hwf : ∀ e ∈ first :: rest,
      e.buffer.wellformed ∧ 1 ≤ e.buffer.numberOfChannels ∧ 0 ≤ e.startTime) :
    ∃ out, mixAudioBuffers (first :: rest) = Except.ok out ∧
      out.sampleRate = first.buffer.sampleRate ∧
      (∀ e ∈ first :: rest, e.buffer.numberOfChannels ≤ out.numberOfChannels) ∧
      (∃ e ∈ first :: rest, out.numberOfChannels = e.buffer.numberOfChannels) ∧
      (∃ m, (∀ e ∈ first :: rest, e.startTime + e.buffer.duration ≤ m) ∧
        (∃ e ∈ first :: rest, m = e.startTime + e.buffer.duration) ∧
        (out.length : Int) = Int.floor (m * (first.buffer.sampleRate : Rat))) ∧
      out.wellformed ∧
      ∀ ch, ch < out.numberOfChannels → ∀ j, j < out.length →
        out.sample ch j =
          ((first :: rest).map fun e =>
            if (Int.floor (e.startTime * (first.buffer.sampleRate : Rat))).toNat ≤ j ∧
                j < (Int.floor (e.startTime * (first.buffer.sampleRate : Rat))).toNat +
                  e.buffer.length
            then e.buffer.sample (min ch (e.buffer.numberOfChannels - 1))
                  (j - (Int.floor (e.startTime * (first.buffer.sampleRate : Rat))).toNat) *
                e.volume
            else 0).sum := by
  refine ⟨_, rfl, rfl, ?_, ?_, ?_, ?_, ?_⟩
  · intro e he
    exact (foldl_max_bounds (fun e : MixEntry => e.buffer.numberOfChannels)
      (first :: rest) 0).2 e he
  · rcases foldl_max_attained (fun e : MixEntry => e.buffer.numberOfChannels)
        (first :: rest) 0 with h0 | ⟨x, hx, hfx⟩
    · have h1 := (foldl_max_bounds (fun e : MixEntry => e.buffer.numberOfChannels)
        (first :: rest) 0).2 first (List.mem_cons_self first rest)
      have h2 := (hwf first (List.mem_cons_self first rest)).2.1
      omega
    · exact ⟨x, hx, hfx⟩
  · refine ⟨(first :: rest).foldl (fun m e => max m (e.startTime + e.buffer.duration)) 0,
      (foldl_max_bounds _ _ 0).2, ?_, ?_⟩
    · rcases foldl_max_attained (fun e : MixEntry => e.startTime + e.buffer.duration)
          (first :: rest) 0 with h0 | ⟨x, hx, hfx⟩
      · have h1 := (foldl_max_bounds (fun e : MixEntry => e.startTime + e.buffer.duration)
          (first :: rest) 0).2 first (List.mem_cons_self first rest)
        have hv : 0 ≤ first.startTime + first.buffer.duration :=
          add_nonneg (hwf first (List.mem_cons_self first rest)).2.2
            (div_nonneg (Nat.cast_nonneg _) (Nat.cast_nonneg _))
        refine ⟨first, List.mem_cons_self first rest, ?_⟩
        rw [h0]
        exact (le_antisymm (h0 ▸ h1) hv).symm
      · exact ⟨x, hx, hfx⟩
    · have h0 : (0 : Rat) ≤
          (first :: rest).foldl (fun m e => max m (e.startTime + e.buffer.duration)) 0 :=
        (foldl_max_bounds (fun e : MixEntry => e.startTime + e.buffer.duration)
          (first :: rest) 0).1
      exact Int.toNat_of_nonneg
        (Int.floor_nonneg.mpr (mul_nonneg h0 (Nat.cast_nonneg _)))
  · constructor
    · show ((List.range _).map _).length = _
      rw [List.length_map, List.length_range]
    · intro d hd
      obtain ⟨ch, _, rfl⟩ := List.mem_map.1 hd
      exact mixChannel_length _ _ _ _
  · intro ch hch j hj
    show (((List.range _).map _).getD ch []).getD j 0 = _
    rw [getD_map_range _ _ _ ch hch, mixChannel_getD _ _ _ _ _ hj]
    refine congrArg List.sum (List.map_congr_left ?_)
    intro e he
    obtain ⟨hewf, hech, hest⟩ := hwf e he
    simp only [entryContrib]
    have hs0 : 0 ≤ Int.floor (e.startTime * (first.buffer.sampleRate : Rat)) :=
      Int.floor_nonneg.mpr (mul_nonneg hest (Nat.cast_nonneg _))
    have hminlt : min ch (e.buffer.numberOfChannels - 1) < e.buffer.channelData.length := by
      rw [hewf.1]
      omega
    have hsrclen : (e.buffer.channelData.getD
        (min ch (e.buffer.numberOfChannels - 1)) []).length = e.buffer.length := by
      rw [List.getD_eq_getElem _ _ hminlt]
      exact hewf.2 _ (List.getElem_mem hminlt)
    rw [hsrclen]
    by_cases hcond : (Int.floor (e.startTime * (first.buffer.sampleRate : Rat))).toNat ≤ j ∧
        j < (Int.floor (e.startTime * (first.buffer.sampleRate : Rat))).toNat + e.buffer.length
    · have hLc : Int.floor (e.startTime * (first.buffer.sampleRate : Rat)) ≤ (j : Int) ∧
          (j : Int) < Int.floor (e.startTime * (first.buffer.sampleRate : Rat)) +
            ((e.buffer.length : Nat) : Int) := by omega
      rw [if_pos hLc, if_pos hcond]
      have hidx : ((j : Int) -
          Int.floor (e.startTime * (first.buffer.sampleRate : Rat))).toNat =
          j - (Int.floor (e.startTime * (first.buffer.sampleRate : Rat))).toNat := by omega
      rw [hidx]
      rfl
    · have hLc : ¬(Int.floor (e.startTime * (first.buffer.sampleRate : Rat)) ≤ (j : Int) ∧
          (j : Int) < Int.floor (e.startTime * (first.buffer.sampleRate : Rat)) +
            ((e.buffer.length : Nat) : Int)) := by omega
      rw [if_neg hLc, if_neg hcond]

/-- Concrete mono buffer for the C2 witness. -/
def mixBufA : AudioBuffer :=
  { numberOfChannels := 1, sampleRate := 2, length := 2, channelData := [[1, 2]] }

/-- Concrete mix entry for the C2 witness. -/
def mixEntryA : MixEntry :=
  { buffer := mixBufA, startTime := 0, volume := 1 }

/-- Witness for C2: a concrete one-entry mix succeeds and takes the first
entry's sample rate. -/
theorem claim_C2_witness :
    ∃ out, mixAudioBuffers [mixEntryA] = Except.ok out ∧ out.sampleRate = 2 := by
  obtain ⟨out, hok, hrate, _⟩ := claim_C2_mixAudioBuffers mixEntryA []
    (by
      intro e he
      rw [List.mem_singleton] at he
      subst he
      refine ⟨⟨rfl, ?_⟩, by decide, by decide⟩
      intro d hd
      rw [show mixEntryA.buffer.channelData = [[1, 2]] from rfl, List.mem_singleton] at hd
      subst hd
      rfl)
  exact ⟨out, hok, hrate⟩

/-! ## Lemmas for the active-clip query -/

theorem orderedInsert_clipOrder (a : Clip) : ∀ (l : List Clip), l.Pairwise clipOrder →
    (∀ b ∈ l, a.track ≤ b.track) →
    (List.orderedInsert startLe a l).Pairwise clipOrder
  | [], _, _ => by simp [clipOrder]
  | b :: l, hp, ha => by
    by_cases hab : startLe a b
    · rw [List.orderedInsert_of_le _ _ hab]
      have hab0 : a.startTime ≤ b.startTime := hab
      refine List.Pairwise.cons ?_ hp
      intro x hx
      rcases List.mem_cons.1 hx with rfl | hxl
      · rcases lt_or_eq_of_le hab0 with h | h
        · exact Or.inl h
        · exact Or.inr ⟨h, ha x (List.mem_cons_self x l)⟩
      · have hbx : clipOrder b x := List.rel_of_pairwise_cons hp hxl
        have hbxle : b.startTime ≤ x.startTime := by
          rcases hbx with h | ⟨h, _⟩
          · exact h.le
          · exact h.le
        rcases lt_or_eq_of_le hab0 with h | h
        · exact Or.inl (lt_of_lt_of_le h hbxle)
        · rcases hbx with h2 | ⟨h2, _⟩
          · exact Or.inl (h ▸ h2)
          · exact Or.inr ⟨h.trans h2, ha x (List.mem_cons_of_mem b hxl)⟩
    · have heq : List.orderedInsert startLe a (b :: l) =
          b :: List.orderedInsert startLe a l := by
        simp only [List.orderedInsert, if_neg hab]
      rw [heq]
      have hba : b.startTime < a.startTime := lt_of_not_le hab
      refine List.Pairwise.cons ?_
        (orderedInsert_clipOrder a l (List.Pairwise.of_cons hp)
          (fun x hx => ha x (List.mem_cons_of_mem b hx)))
      intro x hx
      rcases (List.mem_orderedInsert startLe).1 hx with rfl | hxl
      · exact Or.inl hba
      · exact List.rel_of_pairwise_cons hp hxl

theorem insertionSort_clipOrder : ∀ l : List Clip,
    l.Pairwise (fun x y => x.track ≤ y.track) →
    (List.insertionSort startLe l).Pairwise clipOrder
  | [], _ => by simp
  | a :: l, hp => by
    show (List.orderedInsert startLe a (List.insertionSort startLe l)).Pairwise clipOrder
    refine orderedInsert_clipOrder a _
      (insertionSort_clipOrder l (List.Pairwise.of_cons hp)) ?_
    intro b hb
    exact List.rel_of_pairwise_cons hp ((List.mem_insertionSort startLe).1 hb)

theorem collectVisible_track_pairwise : ∀ (ts : List Track) (n : Nat),
    (∀ i, (h : i < ts.length) → ∀ c ∈ (ts.get ⟨i, h⟩).clips, c.track = n + i) →
    (collectVisible ts).Pairwise (fun x y => x.track ≤ y.track) ∧
    ∀ c ∈ collectVisible ts, n ≤ c.track
  | [], n, _ => ⟨List.Pairwise.nil, fun c hc => absurd hc (List.not_mem_nil c)⟩
  | t :: ts, n, hwf => by
    have hts := collectVisible_track_pairwise ts (n + 1) (fun i h c hc => by
      have h2 := hwf (i + 1) (by simpa using Nat.succ_lt_succ h) c hc
      omega)
    have hhead : ∀ c ∈ t.clips, c.track = n := fun c hc => by
      simpa using hwf 0 (Nat.succ_pos _) c hc
    by_cases hv : t.visible = true
    · have hcv : collectVisible (t :: ts) = t.clips ++ collectVisible ts := by
        unfold collectVisible
        rw [List.filter_cons, if_pos hv, List.flatMap_cons]
      rw [hcv]
      constructor
      · rw [List.pairwise_append]
        refine ⟨List.pairwise_of_forall_mem_list
            (fun a ha b hb => by rw [hhead a ha, hhead b hb]), hts.1, ?_⟩
        intro a ha b hb
        have h1 := hhead a ha
        have h2 := hts.2 b hb
        omega
      · intro c hc
        rcases List.mem_append.1 hc with h | h
        · have := hhead c h
          omega
        · have := hts.2 c h
          omega
    · have hcv : collectVisible (t :: ts) = collectVisible ts := by
        unfold collectVisible
        rw [List.filter_cons, if_neg hv]
      rw [hcv]
      exact ⟨hts.1, fun c hc => by have := hts.2 c hc; omega⟩

/-- C8: the visible-clip selection of renderFrame returns exactly the clips
of visible tracks whose window contains `t` (`startTime ≤ t < endTime`, so in
particular never a clip with `t < startTime` or `t ≥ endTime`), ordered
ascending by startTime with ties broken by owning-track index, lower index
first (stable sort over the track-ordered collection). -/
theorem claim_C8_activeClips (ts : List Track) (t : Rat) :
    (∀ c, c ∈ visibleClipsAt ts t ↔
      ((∃ tr ∈ ts, tr.visible = true ∧ c ∈ tr.clips) ∧
        c.startTime ≤ t ∧ t < c.endTime)) ∧
    (tracksWF ts → (visibleClipsAt ts t).Pairwise clipOrder) := by
  constructor
  · intro c
    unfold visibleClipsAt sortByStart
    rw [List.mem_insertionSort, List.mem_filter]
    simp only [collectVisible, List.mem_flatMap, List.mem_filter, decide_eq_true_eq]
    constructor
    · rintro ⟨⟨tr, ⟨htr, hvis⟩, hc⟩, hcond⟩
      exact ⟨⟨tr, htr, hvis, hc⟩, hcond⟩
    · rintro ⟨⟨tr, htr, hvis, hc⟩, hcond⟩
      exact ⟨⟨tr, ⟨htr, hvis⟩, hc⟩, hcond⟩
  · intro hwf
    unfold visibleClipsAt sortByStart
    refine insertionSort_clipOrder _ (List.Pairwise.filter _ ?_)
    refine (collectVisible_track_pairwise ts 0 ?_).1
    intro i h c hc
    rw [Nat.zero_add]
    exact hwf i h c hc

/-- Clip on track 0 active on [1s, 2s). -/
def clipX : Clip :=
  { id := "x", kind := ClipKind.video, startTime := 1, endTime := 2,
    trimStart := 0, trimEnd := 1, duration := 1, volume := 1, track := 0,
    hasFile := true, effects := [] }

/-- Clip on track 1, same startTime as clipX, active on [1s, 3s). -/
def clipY : Clip :=
  { id := "y", kind := ClipKind.video, startTime := 1, endTime := 3,
    trimStart := 0, trimEnd := 2, duration := 2, volume := 1, track := 1,
    hasFile := true, effects := [] }

/-- First preview track, holding clipX. -/
def track0 : Track :=
  { id := "t0", ttype := ClipKind.video, muted := false, visible := true,
    clips := [clipX] }

/-- Second preview track, holding clipY. -/
def track1 : Track :=
  { id := "t1", ttype := ClipKind.video, muted := false, visible := true,
    clips := [clipY] }

/-- Two visible tracks holding clipX and clipY. -/
def previewTracks : List Track :=
  [track0, track1]

/-- Witness for C8 at t = 1.5s on a concrete two-track timeline with a
startTime tie. -/
theorem claim_C8_witness :
    clipX ∈ visibleClipsAt previewTracks (3/2) ∧
    (visibleClipsAt previewTracks (3/2)).Pairwise clipOrder := by
  refine ⟨?_, (claim_C8_activeClips previewTracks (3/2)).2 (by decide)⟩
  refine ((claim_C8_activeClips previewTracks (3/2)).1 clipX).mpr ?_
  refine ⟨⟨track0, List.mem_cons_self _ _, rfl, List.mem_cons_self _ _⟩, ?_, ?_⟩
  · norm_num [clipX]
  · norm_num [clipX]

/-- Decoded content of clip A of the C4 scenario: mono, 2 samples/second, 2
seconds, with A(1.5s) = 1/4. -/
def bufA : AudioBuffer :=
  { numberOfChannels := 1, sampleRate := 2, length := 4, channelData := [[0, 0, 0, 1/4]] }

/-- Decoded content of clip B of the C4 scenario: mono, 2 samples/second, 2
seconds, with B(0.5s) = 1. -/
def bufB : AudioBuffer :=
  { numberOfChannels := 1, sampleRate := 2, length := 4, channelData := [[0, 1, 0, 0]] }

/-- Clip A of the C4 scenario: volume 1, timeline [0s, 2s), no trim, no
effects. -/
def clipA : AudioClipData :=
  { buffer := bufA, startTime := 0, trimStart := 0, trimEnd := 2, duration := 2,
    volume := 1, effects := [] }

/-- Clip B of the C4 scenario: volume 0.5, timeline [1s, 3s), no trim, no
effects. -/
def clipB : AudioClipData :=
  { buffer := bufB, startTime := 1, trimStart := 0, trimEnd := 2, duration := 2,
    volume := 1/2, effects := [] }

theorem processAudioEntry_clipA :
    processAudioEntry clipA = { buffer := bufA, startTime := 0, volume := 1 } := by
  simp only [processAudioEntry]
  rw [if_neg (by norm_num [clipA] : ¬(clipA.trimStart > 0 ∨ clipA.trimEnd < clipA.duration))]
  rw [if_neg (by norm_num [clipA] : ¬clipA.volume ≠ 1)]
  rw [show clipA.effects = [] from rfl]
  rw [if_neg (by norm_num [clipA] : ¬clipA.volume = 0)]
  rfl

theorem processAudioEntry_clipB :
    processAudioEntry clipB =
      { buffer := changeVolume bufB (1/2), startTime := 1, volume := 1/2 } := by
  simp only [processAudioEntry]
  rw [if_neg (by norm_num [clipB] : ¬(clipB.trimStart > 0 ∨ clipB.trimEnd < clipB.duration))]
  rw [if_pos (by norm_num [clipB] : clipB.volume ≠ 1)]
  rw [show clipB.effects = [] from rfl]
  rw [if_neg (by norm_num [clipB] : ¬clipB.volume = 0)]
  rfl

/-- C4 evaluation: on the claim's scenario (clip A at full volume on [0s,2s),
clip B at volume 0.5 on [1s,3s), no effects, with A(1.5s) = 1/4 and
B(0.5s) = 1) the pipeline produces a mixed sample of 1/2 at t = 1.5s, not the
claimed A(1.5) + 0.5·B(0.5) = 3/4: processAudioClips multiplies clip B by its
volume in changeVolume and mixAudioBuffers multiplies the entry by that
volume again. -/
theorem claim_C4_volume_applied_twice :
    ∃ M, processAudioClipsMix [clipA, clipB] = Except.ok M ∧
      M.sample 0 3 = 1/2 ∧ ((1 : Rat)/2 ≠ 1/4 + (1/2) * 1) := by
  have hmap : processAudioClipsMix [clipA, clipB] =
      mixAudioBuffers [{ buffer := bufA, startTime := 0, volume := 1 },
        { buffer := changeVolume bufB (1/2), startTime := 1, volume := 1/2 }] := by
    unfold processAudioClipsMix
    rw [List.map_cons, List.map_cons, List.map_nil, processAudioEntry_clipA,
      processAudioEntry_clipB]
  have h1 : List.foldl (fun m e => max m (e.startTime + e.buffer.duration)) 0
      [({ buffer := bufA, startTime := 0, volume := 1 } : MixEntry),
       { buffer := changeVolume bufB (1/2), startTime := 1, volume := 1/2 }] = 3 := by
    simp only [List.foldl_cons, List.foldl_nil, AudioBuffer.duration, changeVolume,
      bufA, bufB]
    norm_num
  have hlt : 3 < (Int.floor ((List.foldl
      (fun m e => max m (e.startTime + e.buffer.duration)) 0
      [({ buffer := bufA, startTime := 0, volume := 1 } : MixEntry),
       { buffer := changeVolume bufB (1/2), startTime := 1, volume := 1/2 }]) *
      ((2 : Nat) : Rat))).toNat := by
    rw [h1]
    norm_num
  have hok : mixAudioBuffers
      [({ buffer := bufA, startTime := 0, volume := 1 } : MixEntry),
       { buffer := changeVolume bufB (1/2), startTime := 1, volume := 1/2 }] =
      Except.ok
        { numberOfChannels := 1
          sampleRate := 2
          length := (Int.floor ((List.foldl
            (fun m e => max m (e.startTime + e.buffer.duration)) 0
            [({ buffer := bufA, startTime := 0, volume := 1 } : MixEntry),
             { buffer := changeVolume bufB (1/2), startTime := 1, volume := 1/2 }]) *
            ((2 : Nat) : Rat))).toNat
          channelData := (List.range 1).map (mixChannel
            [({ buffer := bufA, startTime := 0, volume := 1 } : MixEntry),
             { buffer := changeVolume bufB (1/2), startTime := 1, volume := 1/2 }] 2
            (Int.floor ((List.foldl
              (fun m e => max m (e.startTime + e.buffer.duration)) 0
              [({ buffer := bufA, startTime := 0, volume := 1 } : MixEntry),
               { buffer := changeVolume bufB (1/2), startTime := 1, volume := 1/2 }]) *
              ((2 : Nat) : Rat))).toNat) } := rfl
  have hA : entryContrib 2 0 3 { buffer := bufA, startTime := 0, volume := 1 } = 1/4 := by
    have hfl : Int.floor ((0 : Rat) * ((2 : Nat) : Rat)) = 0 := by norm_num
    simp only [entryContrib, bufA]
    rw [hfl]
    rw [if_pos (by norm_num)]
    show (1/4 : Rat) * 1 = 1/4
    norm_num
  have hB : entryContrib 2 0 3
      { buffer := changeVolume bufB (1/2), startTime := 1, volume := 1/2 } = 1/4 := by
    have hfl : Int.floor ((1 : Rat) * ((2 : Nat) : Rat)) = 2 := by norm_num
    simp only [entryContrib, changeVolume, bufB, List.map_cons, List.map_nil]
    rw [hfl]
    rw [if_pos (by norm_num)]
    show (1 * (1/2) : Rat) * (1/2) = 1/4
    norm_num
  refine ⟨_, hmap.trans hok, ?_, by norm_num⟩
  show (((List.range 1).map _).getD 0 []).getD 3 0 = 1/2
  rw [getD_map_range _ _ _ 0 (by norm_num), mixChannel_getD _ _ _ _ _ hlt]
  rw [List.map_cons, List.map_cons, List.map_nil, List.sum_cons, List.sum_cons,
    List.sum_nil]
  rw [hA, hB]
  norm_num

/-! ## Lemmas for the WAV serialisation -/

theorem flatMapRange_length (f : Nat → List Nat) (k : Nat)
    (hf : ∀ j, (f j).length = k) : ∀ n, ((List.range n).flatMap f).length = n * k
  | 0 => by simp
  | n + 1 => by
    rw [List.range_succ, List.flatMap_append, List.length_append,
      flatMapRange_length f k hf n]
    simp only [List.flatMap_cons, List.flatMap_nil, List.append_nil]
    rw [hf n]
    ring

theorem flatMapRange_getD (f : Nat → List Nat) (k : Nat)
    (hf : ∀ j, (f j).length = k) : ∀ (n j r : Nat), j < n → r < k →
    ((List.range n).flatMap f).getD (k * j + r) 0 = (f j).getD r 0
  | 0, j, _, hj, _ => absurd hj (Nat.not_lt_zero j)
  | n + 1, j, r, hj, hr => by
    rw [List.range_succ, List.flatMap_append]
    simp only [List.flatMap_cons, List.flatMap_nil, List.append_nil]
    rcases Nat.lt_or_ge j n with h | h
    · rw [List.getD_append _ _ _ _ (by
        rw [flatMapRange_length f k hf n]
        calc k * j + r < k * j + k := by omega
          _ = k * (j + 1) := (Nat.mul_succ k j).symm
          _ ≤ k * n := Nat.mul_le_mul_left k h
          _ = n * k := Nat.mul_comm k n)]
      exact flatMapRange_getD f k hf n j r h hr
    · have hjn : j = n := by omega
      rw [hjn]
      rw [List.getD_append_right _ _ _ _ (by
        rw [flatMapRange_length f k hf n, Nat.mul_comm n k]
        omega)]
      rw [flatMapRange_length f k hf n]
      rw [show k * n + r - n * k = r from by rw [Nat.mul_comm n k]; omega]

theorem ratTrunc_bounds (q : Rat) (lo hi : Int) (hlo : (lo : Rat) ≤ q)
    (hhi : q ≤ (hi : Rat)) (hlo2 : lo ≤ 0) (hhi2 : 0 ≤ hi) :
    lo ≤ ratTrunc q ∧ ratTrunc q ≤ hi := by
  unfold ratTrunc
  by_cases h : q < 0
  · rw [if_pos h]
    constructor
    · have hfl : Int.floor (-q) ≤ -lo := by
        rw [show (-lo : Int) = Int.floor (((-lo : Int) : Rat)) from (Int.floor_intCast _).symm]
        apply Int.floor_le_floor
        push_cast
        linarith
      omega
    · have h0 : 0 ≤ Int.floor (-q) := Int.floor_nonneg.mpr (by linarith)
      omega
  · rw [if_neg h]
    constructor
    · have h0 : 0 ≤ Int.floor q := Int.floor_nonneg.mpr (not_lt.1 h)
      omega
    · have hfl : Int.floor q ≤ hi := by
        rw [show hi = Int.floor ((hi : Int) : Rat) from (Int.floor_intCast _).symm]
        exact Int.floor_le_floor hhi
      omega

theorem sampleToPcm_bounds (x : Rat) :
    -32768 ≤ sampleToPcm x ∧ sampleToPcm x ≤ 32767 := by
  simp only [sampleToPcm]
  have hs1 : -1 ≤ max (-1) (min 1 x) := le_max_left _ _
  have hs2 : max (-1) (min 1 x) ≤ 1 := max_le (by norm_num) (min_le_left _ _)
  by_cases h : max (-1) (min 1 x) < 0
  · rw [if_pos h]
    refine ratTrunc_bounds _ (-32768) 32767 ?_ ?_ (by norm_num) (by norm_num)
    · have := mul_le_mul_of_nonneg_right hs1 (by norm_num : (0 : Rat) ≤ 32768)
      push_cast
      linarith
    · have := mul_nonpos_of_nonpos_of_nonneg h.le (by norm_num : (0 : Rat) ≤ 32768)
      push_cast
      linarith
  · rw [if_neg h]
    have h0 : 0 ≤ max (-1) (min 1 x) := not_lt.1 h
    refine ratTrunc_bounds _ (-32768) 32767 ?_ ?_ (by norm_num) (by norm_num)
    · have := mul_nonneg h0 (by norm_num : (0 : Rat) ≤ 32767)
      push_cast
      linarith
    · have := mul_le_mul_of_nonneg_right hs2 (by norm_num : (0 : Rat) ≤ 32767)
      push_cast
      linarith

theorem wavHeader_length (b : AudioBuffer) : (wavHeader b).length = 44 := rfl

def wavHeaderBytes (C R N : Nat) : List Nat :=
  [82, 73, 70, 70,
   (36 + N * C * 2) % 256, (36 + N * C * 2) / 256 % 256,
   (36 + N * C * 2) / 65536 % 256, (36 + N * C * 2) / 16777216 % 256,
   87, 65, 86, 69, 102, 109, 116, 32,
   16, 0, 0, 0,
   1, 0,
   C % 256, C / 256 % 256,
   R % 256, R / 256 % 256, R / 65536 % 256, R / 16777216 % 256,
   R * C * 2 % 256, R * C * 2 / 256 % 256,
   R * C * 2 / 65536 % 256, R * C * 2 / 16777216 % 256,
   C * 2 % 256, C * 2 / 256 % 256,
   16, 0,
   100, 97, 116, 97,
   N * C * 2 % 256, N * C * 2 / 256 % 256,
   N * C * 2 / 65536 % 256, N * C * 2 / 16777216 % 256]

theorem wavHeader_bytes (b : AudioBuffer) :
    wavHeader b = wavHeaderBytes b.numberOfChannels b.sampleRate b.length := rfl

theorem exportToWav_getD_header (b : AudioBuffer) (idx : Nat) (h : idx < 44) :
    (exportToWav b).getD idx 0 = (wavHeader b).getD idx 0 := by
  unfold exportToWav
  rw [List.getD_append _ _ _ _ (by rw [wavHeader_length]; exact h)]

theorem exportToWav_getD_data (b : AudioBuffer) (m : Nat) :
    (exportToWav b).getD (44 + m) 0 = (wavData b).getD m 0 := by
  unfold exportToWav
  rw [List.getD_append_right _ _ _ _ (by rw [wavHeader_length]; omega)]
  rw [wavHeader_length]
  rw [show 44 + m - 44 = m from by omega]

theorem wavData_getD (b : AudioBuffer) (i ch κ : Nat) (hi : i < b.length)
    (hch : ch < b.numberOfChannels) (hκ : κ < 2) :
    (wavData b).getD (2 * (i * b.numberOfChannels + ch) + κ) 0 =
      (i16le (sampleToPcm (b.sample ch i))).getD κ 0 := by
  unfold wavData
  have hinner : ∀ j : Nat, ((List.range b.numberOfChannels).flatMap
      fun c => i16le (sampleToPcm (b.sample c j))).length = b.numberOfChannels * 2 :=
    fun j => flatMapRange_length (fun c => i16le (sampleToPcm (b.sample c j))) 2
      (fun _ => rfl) _
  rw [show 2 * (i * b.numberOfChannels + ch) + κ =
      b.numberOfChannels * 2 * i + (2 * ch + κ) from by ring]
  rw [flatMapRange_getD _ (b.numberOfChannels * 2) hinner b.length i (2 * ch + κ) hi
    (by omega)]
  rw [flatMapRange_getD (fun c => i16le (sampleToPcm (b.sample c i))) 2 (fun _ => rfl)
    b.numberOfChannels ch κ hch hκ]

theorem readI16_exportToWav (b : AudioBuffer) (i ch : Nat)
    (hi : i < b.length) (hch : ch < b.numberOfChannels) :
    readI16 (exportToWav b) (44 + 2 * (i * b.numberOfChannels + ch)) =
      sampleToPcm (b.sample ch i) := by
  have hb := sampleToPcm_bounds (b.sample ch i)
  have hlo : (exportToWav b).getD (44 + 2 * (i * b.numberOfChannels + ch)) 0 =
      (sampleToPcm (b.sample ch i) % 65536).toNat % 256 := by
    rw [show 44 + 2 * (i * b.numberOfChannels + ch) =
        44 + (2 * (i * b.numberOfChannels + ch) + 0) from by omega]
    rw [exportToWav_getD_data, wavData_getD b i ch 0 hi hch (by omega)]
    rfl
  have hhi : (exportToWav b).getD (44 + 2 * (i * b.numberOfChannels + ch) + 1) 0 =
      (sampleToPcm (b.sample ch i) % 65536).toNat / 256 % 256 := by
    rw [show 44 + 2 * (i * b.numberOfChannels + ch) + 1 =
        44 + (2 * (i * b.numberOfChannels + ch) + 1) from by omega]
    rw [exportToWav_getD_data, wavData_getD b i ch 1 hi hch (by omega)]
    rfl
  simp only [readI16, readU16]
  rw [hlo, hhi]
  by_cases hcase : (sampleToPcm (b.sample ch i) % 65536).toNat % 256 +
      256 * ((sampleToPcm (b.sample ch i) % 65536).toNat / 256 % 256) < 32768
  · rw [if_pos hcase]
    omega
  · rw [if_neg hcase]
    omega

theorem wavData_length (b : AudioBuffer) :
    (wavData b).length = b.length * (b.numberOfChannels * 2) := by
  unfold wavData
  exact flatMapRange_length _ (b.numberOfChannels * 2)
    (fun j => flatMapRange_length (fun c => i16le (sampleToPcm (b.sample c j))) 2
      (fun _ => rfl) _) b.length

theorem sampleToPcm_zero : sampleToPcm 0 = 0 := by
  simp only [sampleToPcm, ratTrunc]
  norm_num

theorem wavData_silent (b : AudioBuffer) (hz : ∀ ch i, b.sample ch i = 0) :
    ∀ x ∈ wavData b, x = 0 := by
  intro x hx
  unfold wavData at hx
  obtain ⟨i, _, hx2⟩ := List.mem_flatMap.1 hx
  obtain ⟨c, _, hx3⟩ := List.mem_flatMap.1 hx2
  rw [hz c i, sampleToPcm_zero] at hx3
  rw [show i16le 0 = [0, 0] from rfl] at hx3
  rcases List.mem_cons.1 hx3 with rfl | h2
  · rfl
  · rcases List.mem_cons.1 h2 with rfl | h3
    · rfl
    · exact absurd h3 (List.not_mem_nil x)

set_option maxHeartbeats 1000000 in
/-- C1: exportToWav of a well-formed buffer with C channels, rate R and N
samples per channel is exactly 44 + N·C·2 bytes in the canonical
little-endian RIFF/WAVE layout: RIFF size 36 + N·C·2, fmt chunk size 16,
audio format 1, channel count C, sample rate R, byte rate R·C·2, block align
C·2, bits per sample 16, data chunk size N·C·2; each sample is stored at
offset 44 + 2·(frame·C + channel) — channels interleaved per frame — as the
16-bit signed little-endian encoding of the clamped-and-scaled sample value;
and a silent buffer has every data byte equal to 0. -/
theorem claim_C1_exportToWav (b : AudioBuffer) (hwf : b.wellformed)
    (hC : b.numberOfChannels < 32768)
    (hR : b.sampleRate < 4294967296)
    (hBR : b.sampleRate * b.numberOfChannels * 2 < 4294967296)
    (hN : 36 + b.length * b.numberOfChannels * 2 < 4294967296) :
    (exportToWav b).length = 44 + b.length * b.numberOfChannels * 2 ∧
    (exportToWav b).take 4 = strBytes "RIFF" ∧
    readU32 (exportToWav b) 4 = 36 + b.length * b.numberOfChannels * 2 ∧
    ((exportToWav b).drop 8).take 4 = strBytes "WAVE" ∧
    ((exportToWav b).drop 12).take 4 = strBytes "fmt " ∧
    readU32 (exportToWav b) 16 = 16 ∧
    readU16 (exportToWav b) 20 = 1 ∧
    readU16 (exportToWav b) 22 = b.numberOfChannels ∧
    readU32 (exportToWav b) 24 = b.sampleRate ∧
    readU32 (exportToWav b) 28 = b.sampleRate * b.numberOfChannels * 2 ∧
    readU16 (exportToWav b) 32 = b.numberOfChannels * 2 ∧
    readU16 (exportToWav b) 34 = 16 ∧
    ((exportToWav b).drop 36).take 4 = strBytes "data" ∧
    readU32 (exportToWav b) 40 = b.length * b.numberOfChannels * 2 ∧
    (∀ i ch, i < b.length → ch < b.numberOfChannels →
      readI16 (exportToWav b) (44 + 2 * (i * b.numberOfChannels + ch)) =
        sampleToPcm (b.sample ch i)) ∧
    ((∀ ch i, b.sample ch i = 0) → ∀ j, 44 ≤ j → (exportToWav b).getD j 0 = 0) := by
  refine ⟨?_, ?_, ?_, ?_, ?_, ?_, ?_, ?_, ?_, ?_, ?_, ?_, ?_, ?_,
    fun i ch hi hch => readI16_exportToWav b i ch hi hch, ?_⟩
  · show (wavHeader b ++ wavData b).length = _
    rw [List.length_append, wavHeader_length, wavData_length]
    ring
  · show (wavHeader b ++ wavData b).take 4 = _
    rw [List.take_append_of_le_length (by rw [wavHeader_length]; omega), wavHeader_bytes]
    rfl
  · rw [readU32, exportToWav_getD_header b 4 (by omega),
      exportToWav_getD_header b 5 (by omega), exportToWav_getD_header b 6 (by omega),
      exportToWav_getD_header b 7 (by omega), wavHeader_bytes]
    rw [show (wavHeaderBytes b.numberOfChannels b.sampleRate b.length).getD 4 0 =
        (36 + b.length * b.numberOfChannels * 2) % 256 from rfl,
      show (wavHeaderBytes b.numberOfChannels b.sampleRate b.length).getD 5 0 =
        (36 + b.length * b.numberOfChannels * 2) / 256 % 256 from rfl,
      show (wavHeaderBytes b.numberOfChannels b.sampleRate b.length).getD 6 0 =
        (36 + b.length * b.numberOfChannels * 2) / 65536 % 256 from rfl,
      show (wavHeaderBytes b.numberOfChannels b.sampleRate b.length).getD 7 0 =
        (36 + b.length * b.numberOfChannels * 2) / 16777216 % 256 from rfl]
    omega
  · show ((wavHeader b ++ wavData b).drop 8).take 4 = _
    rw [List.drop_append_of_le_length (by rw [wavHeader_length]; omega),
      List.take_append_of_le_length (by rw [List.length_drop, wavHeader_length]; omega),
      wavHeader_bytes]
    rfl
  · show ((wavHeader b ++ wavData b).drop 12).take 4 = _
    rw [List.drop_append_of_le_length (by rw [wavHeader_length]; omega),
      List.take_append_of_le_length (by rw [List.length_drop, wavHeader_length]; omega),
      wavHeader_bytes]
    rfl
  · rw [readU32, exportToWav_getD_header b 16 (by omega),
      exportToWav_getD_header b 17 (by omega), exportToWav_getD_header b 18 (by omega),
      exportToWav_getD_header b 19 (by omega), wavHeader_bytes]
    rfl
  · rw [readU16, exportToWav_getD_header b 20 (by omega),
      exportToWav_getD_header b 21 (by omega), wavHeader_bytes]
    rfl
  · rw [readU16, exportToWav_getD_header b 22 (by omega),
      exportToWav_getD_header b 23 (by omega), wavHeader_bytes]
    rw [show (wavHeaderBytes b.numberOfChannels b.sampleRate b.length).getD 22 0 =
        b.numberOfChannels % 256 from rfl,
      show (wavHeaderBytes b.numberOfChannels b.sampleRate b.length).getD 23 0 =
        b.numberOfChannels / 256 % 256 from rfl]
    omega
  · rw [readU32, exportToWav_getD_header b 24 (by omega),
      exportToWav_getD_header b 25 (by omega), exportToWav_getD_header b 26 (by omega),
      exportToWav_getD_header b 27 (by omega), wavHeader_bytes]
    rw [show (wavHeaderBytes b.numberOfChannels b.sampleRate b.length).getD 24 0 =
        b.sampleRate % 256 from rfl,
      show (wavHeaderBytes b.numberOfChannels b.sampleRate b.length).getD 25 0 =
        b.sampleRate / 256 % 256 from rfl,
      show (wavHeaderBytes b.numberOfChannels b.sampleRate b.length).getD 26 0 =
        b.sampleRate / 65536 % 256 from rfl,
      show (wavHeaderBytes b.numberOfChannels b.sampleRate b.length).getD 27 0 =
        b.sampleRate / 16777216 % 256 from rfl]
    omega
  · rw [readU32, exportToWav_getD_header b 28 (by omega),
      exportToWav_getD_header b 29 (by omega), exportToWav_getD_header b 30 (by omega),
      exportToWav_getD_header b 31 (by omega), wavHeader_bytes]
    rw [show (wavHeaderBytes b.numberOfChannels b.sampleRate b.length).getD 28 0 =
        b.sampleRate * b.numberOfChannels * 2 % 256 from rfl,
      show (wavHeaderBytes b.numberOfChannels b.sampleRate b.length).getD 29 0 =
        b.sampleRate * b.numberOfChannels * 2 / 256 % 256 from rfl,
      show (wavHeaderBytes b.numberOfChannels b.sampleRate b.length).getD 30 0 =
        b.sampleRate * b.numberOfChannels * 2 / 65536 % 256 from rfl,
      show (wavHeaderBytes b.numberOfChannels b.sampleRate b.length).getD 31 0 =
        b.sampleRate * b.numberOfChannels * 2 / 16777216 % 256 from rfl]
    omega
  · rw [readU16, exportToWav_getD_header b 32 (by omega),
      exportToWav_getD_header b 33 (by omega), wavHeader_bytes]
    rw [show (wavHeaderBytes b.numberOfChannels b.sampleRate b.length).getD 32 0 =
        b.numberOfChannels * 2 % 256 from rfl,
      show (wavHeaderBytes b.numberOfChannels b.sampleRate b.length).getD 33 0 =
        b.numberOfChannels * 2 / 256 % 256 from rfl]
    omega
  · rw [readU16, exportToWav_getD_header b 34 (by omega),
      exportToWav_getD_header b 35 (by omega), wavHeader_bytes]
    rfl
  · show ((wavHeader b ++ wavData b).drop 36).take 4 = _
    rw [List.drop_append_of_le_length (by rw [wavHeader_length]; omega),
      List.take_append_of_le_length (by rw [List.length_drop, wavHeader_length]; omega),
      wavHeader_bytes]
    rfl
  · rw [readU32, exportToWav_getD_header b 40 (by omega),
      exportToWav_getD_header b 41 (by omega), exportToWav_getD_header b 42 (by omega),
      exportToWav_getD_header b 43 (by omega), wavHeader_bytes]
    rw [show (wavHeaderBytes b.numberOfChannels b.sampleRate b.length).getD 40 0 =
        b.length * b.numberOfChannels * 2 % 256 from rfl,
      show (wavHeaderBytes b.numberOfChannels b.sampleRate b.length).getD 41 0 =
        b.length * b.numberOfChannels * 2 / 256 % 256 from rfl,
      show (wavHeaderBytes b.numberOfChannels b.sampleRate b.length).getD 42 0 =
        b.length * b.numberOfChannels * 2 / 65536 % 256 from rfl,
      show (wavHeaderBytes b.numberOfChannels b.sampleRate b.length).getD 43 0 =
        b.length * b.numberOfChannels * 2 / 16777216 % 256 from rfl]
    omega
  · intro hz j hj
    rcases Nat.lt_or_ge j (exportToWav b).length with hlt | hge
    · rw [show j = 44 + (j - 44) from by omega, exportToWav_getD_data]
      rcases Nat.lt_or_ge (j - 44) (wavData b).length with h2 | h2
      · rw [List.getD_eq_getElem _ _ h2]
        exact wavData_silent b hz _ (List.getElem_mem h2)
      · exact List.getD_eq_default _ _ h2
    · exact List.getD_eq_default _ _ hge
/-- Concrete buffer for the C1 witness: mono, 4 Hz, 2 samples, second sample
-1/2. -/
def wavBuf : AudioBuffer :=
  { numberOfChannels := 1, sampleRate := 4, length := 2, channelData := [[0, -1/2]] }

/-- Witness for C1 on a concrete buffer: 48 bytes total, byte rate 8, and the
second frame stores -16384 = trunc(-1/2 · 32768). -/
theorem claim_C1_witness :
    AudioBuffer.wellformed wavBuf ∧
    (exportToWav wavBuf).length = 48 ∧
    readU32 (exportToWav wavBuf) 28 = 8 ∧
    readI16 (exportToWav wavBuf) 46 = -16384 := by
  have hwf : wavBuf.wellformed := by decide
  obtain ⟨h1, _, _, _, _, _, _, _, _, h10, _, _, _, _, h15, _⟩ :=
    claim_C1_exportToWav wavBuf hwf (by decide) (by decide) (by decide) (by decide)
  refine ⟨hwf, h1.trans (by decide), h10.trans (by decide), ?_⟩
  have hs : sampleToPcm (-1/2 : Rat) = -16384 := by
    simp only [sampleToPcm, ratTrunc]
    norm_num
  have h := h15 1 0 (by decide) (by decide)
  calc readI16 (exportToWav wavBuf) 46
      = sampleToPcm (wavBuf.sample 0 1) := h
    _ = -16384 := by
        rw [show wavBuf.sample 0 1 = -1/2 from rfl]
        exact hs
